import Mathlib

/-
Verification development for the compass-schema-validation modules.

The repository is a Redux-style plugin: a `validation` module
(src/src/modules/validation.js, with an earlier variant of the same module
elsewhere in the tree), a `sample-documents` module (two variants: one
driven by `dataService.find`, one by `dataService.count` + `aggregate`),
and thunks that talk to an external data service.

The embedding below translates those modules into Lean:

* JS values produced by evaluating a validator expression are modelled by
  the mutual inductive `JsValue`/`JsElems`/`JsFields` (documents, arrays,
  strings, integer numerals, booleans, null).
* `executeJavascript` in the source hands the text `'__result = ' + input`
  to the `context-eval` npm package, i.e. to a JS engine.  We model that
  engine on the JSON-like expression fragment the plugin actually works
  with: object literals (quoted or identifier keys), array literals,
  single- or double-quoted strings without escape sequences, integer
  numerals, `true`/`false`/`null`, with whitespace.  The model is the
  executable parser `parseJsExpr`.  The empty program is a syntax error,
  exactly as in JS (`__result = ` is an incomplete assignment).
* `EJSON.stringify` (the `mongodb-extended-json` npm package) is modelled
  on the same fragment by the canonical compact renderer `renderV`.
* Reducers are pure functions `State → Action → State`; an `Action` is a
  record with a `type` string and optional payload fields, and each
  module's `MAPPINGS` is the source's action-type lookup table.
* Thunks are modelled as functions from the outcomes of the external
  data-service calls to the list of Redux actions they dispatch.
-/

namespace SchemaValidation

mutual

/-- A JS value of the JSON-like fragment used by the plugin.  Numbers are
restricted to integers (the repository's validators use only integer
literals); `JsElems` and `JsFields` are the array-element and
object-member spines, made mutual so that all recursion is structural. -/
inductive JsValue : Type where
  | str : String → JsValue
  | num : Int → JsValue
  | bool : Bool → JsValue
  | null : JsValue
  | arr : JsElems → JsValue
  | obj : JsFields → JsValue

inductive JsElems : Type where
  | enil : JsElems
  | econs : JsValue → JsElems → JsElems

inductive JsFields : Type where
  | fnil : JsFields
  | fcons : String → JsValue → JsFields → JsFields

end

deriving instance DecidableEq for JsValue
deriving instance DecidableEq for JsElems
deriving instance DecidableEq for JsFields

/-! ### Character classes (by code point, so that `omega` can reason about them) -/

/-- Whitespace recognised by the JS lexer model: space, tab, LF, CR. -/
def wsChar (c : Char) : Bool := c.toNat = 32 || c.toNat = 9 || c.toNat = 10 || c.toNat = 13

/-- Decimal digit. -/
def digitChar (c : Char) : Bool := 48 ≤ c.toNat && c.toNat ≤ 57

/-- A character allowed in a JS identifier (letters, digits, `_`, `$`). -/
def identChar (c : Char) : Bool :=
  (65 ≤ c.toNat && c.toNat ≤ 90) || (97 ≤ c.toNat && c.toNat ≤ 122) ||
  (48 ≤ c.toNat && c.toNat ≤ 57) || c.toNat = 95 || c.toNat = 36

/-- A character allowed to start a JS identifier (no digits). -/
def identStartChar (c : Char) : Bool :=
  (65 ≤ c.toNat && c.toNat ≤ 90) || (97 ≤ c.toNat && c.toNat ≤ 122) ||
  c.toNat = 95 || c.toNat = 36

/-- Drop leading whitespace. -/
def dropWs : List Char → List Char
  | c :: cs => if wsChar c then dropWs cs else c :: cs
  | [] => []

/-- Split off a leading run of decimal digits. -/
def spanDigits : List Char → List Char × List Char
  | c :: cs =>
    if digitChar c then
      let p := spanDigits cs
      (c :: p.1, p.2)
    else ([], c :: cs)
  | [] => ([], [])

/-- Split off a leading run of identifier characters. -/
def spanIdent : List Char → List Char × List Char
  | c :: cs =>
    if identChar c then
      let p := spanIdent cs
      (c :: p.1, p.2)
    else ([], c :: cs)
  | [] => ([], [])

/-- A remainder that cannot extend a token: empty or starting with a
separator/closer the grammar recognises. -/
def delimHead : List Char → Bool
  | [] => true
  | c :: _ => c.toNat = 44 || c.toNat = 125 || c.toNat = 93

/-- Numeric value of a digit run (most significant first). -/
def digitsVal (ds : List Char) : Nat :=
  ds.foldl (fun acc c => acc * 10 + (c.toNat - 48)) 0

/-- Consume the body of a quoted string up to the closing quote `q`
(given by code point).  Escape sequences are outside the modelled
fragment, so a backslash fails the parse. -/
def scanString (q : Nat) : List Char → Option (List Char × List Char)
  | [] => none
  | c :: cs =>
    if c.toNat = q then some ([], cs)
    else if c.toNat = 92 then none
    else
      match scanString q cs with
      | some p => some (c :: p.1, p.2)
      | none => none

/-- Parse an object key: a quoted string or an identifier. -/
def parseKey (cs : List Char) : Option (String × List Char) :=
  match dropWs cs with
  | [] => none
  | c :: cs1 =>
    if c.toNat = 34 || c.toNat = 39 then
      match scanString c.toNat cs1 with
      | some p => some (String.mk p.1, p.2)
      | none => none
    else if identStartChar c then
      let p := spanIdent (c :: cs1)
      some (String.mk p.1, p.2)
    else none

/-! ### The expression parser (the `context-eval` model)

Structural on a fuel argument; `parseJsExpr` supplies fuel strictly larger
than the input length, which the round-trip proof shows is always enough
for rendered values. -/

mutual

/-- Parse one JSON-like JS expression value. -/
def parseValue : Nat → List Char → Option (JsValue × List Char)
  | 0, _ => none
  | Nat.succ f, cs =>
    match dropWs cs with
    | [] => none
    | c :: cs1 =>
      if digitChar c then
        let p := spanDigits (c :: cs1)
        some (JsValue.num (Int.ofNat (digitsVal p.1)), p.2)
      else if c.toNat = 45 then
        match spanDigits cs1 with
        | ([], _) => none
        | (d :: ds, r) => some (JsValue.num (-(Int.ofNat (digitsVal (d :: ds)))), r)
      else if c.toNat = 34 || c.toNat = 39 then
        match scanString c.toNat cs1 with
        | some p => some (JsValue.str (String.mk p.1), p.2)
        | none => none
      else if c.toNat = 123 then
        match dropWs cs1 with
        | [] => none
        | d :: cs2 =>
          if d.toNat = 125 then some (JsValue.obj JsFields.fnil, cs2)
          else
            match parseMembers f (d :: cs2) with
            | some p => some (JsValue.obj p.1, p.2)
            | none => none
      else if c.toNat = 91 then
        match dropWs cs1 with
        | [] => none
        | d :: cs2 =>
          if d.toNat = 93 then some (JsValue.arr JsElems.enil, cs2)
          else
            match parseElems f (d :: cs2) with
            | some p => some (JsValue.arr p.1, p.2)
            | none => none
      else
        let p := spanIdent (c :: cs1)
        if p.1 = ['t', 'r', 'u', 'e'] then some (JsValue.bool true, p.2)
        else if p.1 = ['f', 'a', 'l', 's', 'e'] then some (JsValue.bool false, p.2)
        else if p.1 = ['n', 'u', 'l', 'l'] then some (JsValue.null, p.2)
        else none

/-- Parse one or more `key : value` members followed by `}`. -/
def parseMembers : Nat → List Char → Option (JsFields × List Char)
  | 0, _ => none
  | Nat.succ f, cs =>
    match parseKey cs with
    | none => none
    | some (k, r1) =>
      match dropWs r1 with
      | [] => none
      | c :: r2 =>
        if c.toNat = 58 then
          match parseValue f r2 with
          | none => none
          | some (v, r3) =>
            match dropWs r3 with
            | [] => none
            | d :: r4 =>
              if d.toNat = 44 then
                match parseMembers f r4 with
                | some p => some (JsFields.fcons k v p.1, p.2)
                | none => none
              else if d.toNat = 125 then some (JsFields.fcons k v JsFields.fnil, r4)
              else none
        else none

/-- Parse one or more array elements followed by `]`. -/
def parseElems : Nat → List Char → Option (JsElems × List Char)
  | 0, _ => none
  | Nat.succ f, cs =>
    match parseValue f cs with
    | none => none
    | some (v, r1) =>
      match dropWs r1 with
      | [] => none
      | c :: r2 =>
        if c.toNat = 44 then
          match parseElems f r2 with
          | some p => some (JsElems.econs v p.1, p.2)
          | none => none
        else if c.toNat = 93 then some (JsElems.econs v JsElems.enil, r2)
        else none

end

/-- Evaluate a complete expression: parse one value and insist that only
whitespace remains, as the JS engine does for `__result = <input>`. -/
def parseJsExpr (s : String) : Option JsValue :=
  match parseValue (s.data.length + 1) s.data with
  | some (v, rest) => if dropWs rest = [] then some v else none
  | none => none

/-- Models `executeJavascript(input, sandbox)` from the validation module:
the source builds `'__result = ' + input` and hands it to `context-eval`;
evaluation either yields the value of the expression or throws.  The
single modelled error message stands for the engine's various
SyntaxError/ReferenceError messages. -/
def executeJavascript (input : String) : Except String JsValue :=
  match parseJsExpr input with
  | some v => Except.ok v
  | none => Except.error "SyntaxError: Unexpected end of input"

/-! ### The canonical renderer (the `EJSON.stringify` model)

Rendering works on character lists so the round-trip proof can reason
about `parseValue (renderV v ++ rest)` without `String` friction. -/

/-- Decimal digit character of `d` (for `d ≤ 9`). -/
def digitOf (d : Nat) : Char :=
  match d with
  | 0 => '0' | 1 => '1' | 2 => '2' | 3 => '3' | 4 => '4'
  | 5 => '5' | 6 => '6' | 7 => '7' | 8 => '8' | _ => '9'

/-- Decimal digit characters of `n`, most significant first. -/
def natChars (n : Nat) : List Char :=
  if n < 10 then [digitOf n]
  else natChars (n / 10) ++ [digitOf (n % 10)]
termination_by n
decreasing_by exact Nat.div_lt_self (by omega) (by omega)

/-- Characters of an integer numeral. -/
def intChars (i : Int) : List Char :=
  if i < 0 then '-' :: natChars i.natAbs else natChars i.natAbs

mutual

/-- Compact canonical rendering of a value: double-quoted strings, quoted
keys, no whitespace — the shape `EJSON.stringify` produces for the
modelled fragment. -/
def renderV : JsValue → List Char
  | JsValue.str s => '"' :: s.data ++ ['"']
  | JsValue.num i => intChars i
  | JsValue.bool true => ['t', 'r', 'u', 'e']
  | JsValue.bool false => ['f', 'a', 'l', 's', 'e']
  | JsValue.null => ['n', 'u', 'l', 'l']
  | JsValue.arr es => '[' :: renderE es ++ [']']
  | JsValue.obj fs => '{' :: renderF fs ++ ['}']

/-- Comma-separated rendering of array elements. -/
def renderE : JsElems → List Char
  | JsElems.enil => []
  | JsElems.econs v JsElems.enil => renderV v
  | JsElems.econs v (JsElems.econs w es) =>
    renderV v ++ ',' :: renderE (JsElems.econs w es)

/-- Comma-separated rendering of `"key":value` members. -/
def renderF : JsFields → List Char
  | JsFields.fnil => []
  | JsFields.fcons k v JsFields.fnil => '"' :: k.data ++ '"' :: ':' :: renderV v
  | JsFields.fcons k v (JsFields.fcons k2 w fs) =>
    ('"' :: k.data ++ '"' :: ':' :: renderV v) ++ ',' :: renderF (JsFields.fcons k2 w fs)

end

/-- Values the renderer/parser round-trip covers: every string (keys
included) is free of the quote and backslash characters, which the
modelled fragment does not escape. -/
def plainString (s : String) : Bool := s.data.all fun c => c.toNat ≠ 34 && c.toNat ≠ 92

mutual

/-- Well-formed value: all strings are `plainString`. -/
def wfV : JsValue → Bool
  | JsValue.str s => plainString s
  | JsValue.num _ => true
  | JsValue.bool _ => true
  | JsValue.null => true
  | JsValue.arr es => wfE es
  | JsValue.obj fs => wfF fs

/-- Well-formed element spine. -/
def wfE : JsElems → Bool
  | JsElems.enil => true
  | JsElems.econs v es => wfV v && wfE es

/-- Well-formed member spine. -/
def wfF : JsFields → Bool
  | JsFields.fnil => true
  | JsFields.fcons k v fs => plainString k && wfV v && wfF fs

end

namespace EJSON

/-- Models `EJSON.stringify` from `mongodb-extended-json` on the JSON-like
fragment: the canonical compact rendering.  (The source sometimes passes an
indent argument; the claims do not depend on layout, so the model renders
compactly throughout.) -/
def stringify (v : SchemaValidation.JsValue) : String :=
  String.mk (SchemaValidation.renderV v)

end EJSON

/-! ### Redux actions

In the source an action is a plain object with a `type` string and payload
fields; `Action` carries every payload field any of the embedded modules
uses, absent fields being `none`.  The reducers dispatch on `type` through
their `MAPPINGS` tables, so an unknown `type` falls through to the
identity in every module. -/

/-- A dispatched Redux action. -/
structure Action where
  type : String
  validator : Option String
  validationAction : Option String
  validationLevel : Option String
  matching : Option JsValue
  notmatching : Option JsValue
  syntaxError : Option String
deriving DecidableEq

deriving instance DecidableEq for Except

/-- An action carrying only its `type`. -/
def Action.bare (t : String) : Action :=
  { type := t
    validator := none
    validationAction := none
    validationLevel := none
    matching := none
    notmatching := none
    syntaxError := none }

namespace Validation

/-! ### The validation module (src/src/modules/validation.js) -/

/-- Action type `validation/VALIDATOR_CHANGED`. -/
def VALIDATOR_CHANGED : String := "validation/VALIDATOR_CHANGED"

/-- Action type `validation/VALIDATOR_CANCELED`. -/
def VALIDATOR_CANCELED : String := "validation/VALIDATOR_CANCELED"

/-- Action type `validation/VALIDATOR_SAVED`. -/
def VALIDATOR_SAVED : String := "validation/VALIDATOR_SAVED"

/-- Action type `validation/VALIDATOR_CREATED`. -/
def VALIDATOR_CREATED : String := "validation/VALIDATOR_CREATED"

/-- Action type `validation/VALIDATION_ACTION_CHANGED`. -/
def VALIDATION_ACTION_CHANGED : String := "validation/VALIDATION_ACTION_CHANGED"

/-- Action type `validation/VALIDATION_LEVEL_CHANGED`. -/
def VALIDATION_LEVEL_CHANGED : String := "validation/VALIDATION_LEVEL_CHANGED"

/-- The validation slice of the store.  JS fields can hold `undefined`:
`validator` and `prevValidator` are `Option String` with `none` for
`undefined` (the initial state has no `prevValidator` key at all, and
`cancelValidator` copies `prevValidator` into `validator` verbatim). -/
structure VState where
  validator : Option String
  validationAction : String
  validationLevel : String
  isChanged : Bool
  syntaxError : Option String
  prevValidator : Option String
deriving DecidableEq

/-- The `INITIAL_STATE` of the validation module. -/
def INITIAL_STATE : VState :=
  { validator := some ""
    validationAction := "warning"
    validationLevel := "moderate"
    isChanged := false
    syntaxError := none
    prevValidator := none }

/-- The result of `checkValidator`: on success `validator` holds the
evaluated document, on failure it keeps the original text. -/
inductive CheckedValidator : Type where
  | text : String → CheckedValidator
  | parsed : JsValue → CheckedValidator
deriving DecidableEq

/-- The record `checkValidator` returns. -/
structure CheckResult where
  validator : CheckedValidator
  syntaxError : Option String
deriving DecidableEq

/-- The function `checkValidator(validator)`: evaluate the text in the sandbox; on an
evaluation error keep the original text and record the error. -/
def checkValidator (validator : String) : CheckResult :=
  match executeJavascript validator with
  | Except.ok v => { validator := CheckedValidator.parsed v, syntaxError := none }
  | Except.error e => { validator := CheckedValidator.text validator, syntaxError := some e }

/-- Models the `javascript-stringify` npm package on the two shapes the
module feeds it: an evaluated document (rendered canonically) or a plain
string (single-quoted).  The claims never depend on the produced text. -/
def javascriptStringify : CheckedValidator → String
  | CheckedValidator.parsed v => String.mk (renderV v)
  | CheckedValidator.text s => String.mk (Char.ofNat 39 :: s.data ++ [Char.ofNat 39])

/-- The `VALIDATOR_CHANGED` handler: re-check the text, mark the record dirty,
store the raw text and the check's error.  (The source reads
`action.validator`, which the action creator always populates; the model
defaults an absent payload to the empty string.) -/
def changeValidator (state : VState) (action : Action) : VState :=
  let validation := checkValidator (action.validator.getD "")
  { state with
    isChanged := true
    validator := action.validator
    syntaxError := validation.syntaxError }

/-- The `VALIDATOR_CANCELED` handler: copy `prevValidator` into `validator`
(undefined when no snapshot was ever taken), clear the dirty flag and the
syntax error.  `validationAction` and `validationLevel` are not touched. -/
def cancelValidator (state : VState) : VState :=
  { state with isChanged := false, validator := state.prevValidator, syntaxError := none }

/-- The `VALIDATOR_SAVED` handler: store the saved text, clear the dirty flag
and the syntax error.  No other field is touched. -/
def updateValidator (state : VState) (action : Action) : VState :=
  { state with isChanged := false, validator := action.validator, syntaxError := none }

/-- The `VALIDATOR_CREATED` handler: check and stringify the fetched
validator, store it as both `validator` and the `prevValidator`
snapshot. -/
def createValidator (state : VState) (action : Action) : VState :=
  let validation := checkValidator (action.validator.getD "")
  let validator := javascriptStringify validation.validator
  { state with
    isChanged := false
    prevValidator := some validator
    validator := some validator
    syntaxError := none }

/-- The `VALIDATION_ACTION_CHANGED` handler: set `validationAction` only. -/
def changeValidationAction (state : VState) (action : Action) : VState :=
  { state with validationAction := action.validationAction.getD "" }

/-- The `VALIDATION_LEVEL_CHANGED` handler: set `validationLevel` only. -/
def changeValidationLevel (state : VState) (action : Action) : VState :=
  { state with validationLevel := action.validationLevel.getD "" }

/-- The action-type lookup table of the module. -/
def MAPPINGS (t : String) : Option (VState → Action → VState) :=
  if t = VALIDATOR_CHANGED then some changeValidator
  else if t = VALIDATOR_CANCELED then some (fun s _ => cancelValidator s)
  else if t = VALIDATOR_CREATED then some createValidator
  else if t = VALIDATOR_SAVED then some updateValidator
  else if t = VALIDATION_ACTION_CHANGED then some changeValidationAction
  else if t = VALIDATION_LEVEL_CHANGED then some changeValidationLevel
  else none

/-- The validation reducer: look the action type up in `MAPPINGS`, fall
through to the unchanged state when it is not registered. -/
def reducer (state : VState) (action : Action) : VState :=
  match MAPPINGS action.type with
  | some fn => fn state action
  | none => state

/-- Action creator `validationActionChanged`. -/
def validationActionChanged (validationAction : String) : Action :=
  { Action.bare VALIDATION_ACTION_CHANGED with validationAction := some validationAction }

/-- Action creator `validationLevelChanged`. -/
def validationLevelChanged (validationLevel : String) : Action :=
  { Action.bare VALIDATION_LEVEL_CHANGED with validationLevel := some validationLevel }

/-- Action creator `validatorChanged`. -/
def validatorChanged (validator : String) : Action :=
  { Action.bare VALIDATOR_CHANGED with validator := some validator }

/-- Action creator `validatorCreated`. -/
def validatorCreated (validator : String) : Action :=
  { Action.bare VALIDATOR_CREATED with validator := some validator }

/-- Action creator `validatorCanceled`. -/
def validatorCanceled : Action := Action.bare VALIDATOR_CANCELED

/-- Action creator `validatorSaved`. -/
def validatorSaved (validator : String) : Action :=
  { Action.bare VALIDATOR_SAVED with validator := some validator }

/-! ### The `fetchValidation` thunk -/

/-- Collection options as returned by `listCollections`; absent keys are
`none`. -/
structure CollectionOptions where
  validator : Option JsValue
  validationAction : Option String
  validationLevel : Option String
deriving DecidableEq

/-- One entry of the `listCollections` result. -/
structure CollectionInfo where
  options : Option CollectionOptions
deriving DecidableEq

/-- The triple the callback assembles before dispatching. -/
structure FetchedValidation where
  validator : JsValue
  validationAction : String
  validationLevel : String
deriving DecidableEq

/-- The `listCollections` callback of `fetchValidation`, modelled as a
function from the callback arguments to either a thrown JS error
(`Except.error`) or the list of dispatched actions.

The source reads `data[0].options` *before* looking at `error`: when the
lookup failed and `data` is `undefined` (or an empty array), the member
access throws and nothing is dispatched.  Otherwise a validation triple is
built with `lodash.defaults` — fetched values when `error` is falsy and
`options` present, module defaults for every absent key — and three
actions are dispatched. -/
def fetchValidationCallback (error : Option String) (data : Option (List CollectionInfo)) :
    Except String (List Action) :=
  match data with
  | none => Except.error "TypeError: Cannot read property 0 of undefined"
  | some docs =>
    match docs with
    | [] => Except.error "TypeError: Cannot read property options of undefined"
    | info :: _ =>
      let options := info.options
      let validation : FetchedValidation :=
        match error, options with
        | none, some o =>
          { validator := o.validator.getD (JsValue.str "")
            validationAction := o.validationAction.getD INITIAL_STATE.validationAction
            validationLevel := o.validationLevel.getD INITIAL_STATE.validationLevel }
        | _, _ =>
          { validator := JsValue.str ""
            validationAction := INITIAL_STATE.validationAction
            validationLevel := INITIAL_STATE.validationLevel }
      Except.ok
        [validatorCreated (EJSON.stringify validation.validator),
         validationActionChanged validation.validationAction,
         validationLevelChanged validation.validationLevel]

/-! ### The `saveValidation` thunk -/

/-- The namespace of the active collection. -/
structure CollNamespace where
  database : String
  collection : String
deriving DecidableEq

/-- The slice of the root state the `saveValidation` thunk reads.  Note
that it reads only the data service and the namespace: the validation
slice (current `validationAction`/`validationLevel`) is present in the
store but never consulted.  (The source field is called `namespace`,
a Lean keyword, hence `ns` here.) -/
structure SaveState where
  hasDataService : Bool
  ns : CollNamespace
  validation : VState
deriving DecidableEq

/-- The `collMod` command object `saveValidation` sends: exactly the three
keys the source's object literal has. -/
structure CollModCommand where
  collMod : String
  validator : CheckedValidator
  validationLevel : String
deriving DecidableEq

/-- The command `saveValidation(validator)` sends to
`dataService.command`, or `none` when no data service is connected.  The
`validationLevel` is the literal `'moderate'` from the source and no
`validationAction` key exists in the command. -/
def saveValidationCommand (validator : String) (st : SaveState) : Option CollModCommand :=
  if st.hasDataService then
    some { collMod := st.ns.collection
           validator := (checkValidator validator).validator
           validationLevel := "moderate" }
  else none

/-- The `dataService.command` callback of `saveValidation`: after logging,
it dispatches `validatorSaved(validator)` whether or not `error` is set. -/
def saveValidationCallback (validator : String) (_error : Option String) : List Action :=
  [validatorSaved validator]

end Validation

namespace ValidationP5

/-! ### The earlier validation-module variant (the `mongodb-language-model`
one): its `checkValidator` normalizes the evaluated document back to text
with `EJSON.stringify` and validates that text against the rule-grammar
acceptor `queryLanguage.accepts`. -/

/-- The record this variant's `checkValidator` returns: `validator` is
always text — the canonical stringification on success, the original
input on an evaluation error. -/
structure CheckResult where
  validator : String
  syntaxError : Option String
deriving DecidableEq

/-- The fixed message used when the rule grammar rejects the normalized
text. -/
def GRAMMAR_REJECTED : String := "MongoDB language model does not accept the input"

/-- The function `checkValidator(validator)`, parameterized by the external rule-grammar
acceptor (`queryLanguage.accepts`, a black-box collaborator): evaluate,
stringify, then ask the acceptor; on an evaluation error keep the original
text. -/
def checkValidator (accepts : String → Bool) (validator : String) : CheckResult :=
  match executeJavascript validator with
  | Except.ok v =>
    let normalized := EJSON.stringify v
    { validator := normalized
      syntaxError := if accepts normalized then none else some GRAMMAR_REJECTED }
  | Except.error e => { validator := validator, syntaxError := some e }

end ValidationP5

namespace SampleDocuments

/-! ### The sample-documents module

Both variants share the same reducer; they differ in how the fetch thunk
talks to the data service (`find` twice versus `count` + two
`aggregate`s). -/

/-- Action type of a settled sample fetch. -/
def SAMPLE_DOCUMENTS_FETCHED : String := "validation/namespace/SAMPLE_DOCUMENTS_FETCHED"

/-- Action type dispatched when a fetch starts. -/
def LOADING_SAMPLE_DOCUMENTS : String := "validation/namespace/LOADING_SAMPLE_DOCUMENTS"

/-- Modelled from the spec: the validation module also exports a
`syntaxErrorOccurred` action creator, which the aggregation-based
sample-documents variant imports to surface a failed lookup; the module
that defines it is not among the source files, so its action type and
payload are taken from the spec's description of a surfaced
sample-query error. -/
def SYNTAX_ERROR_OCCURRED : String := "validation/SYNTAX_ERROR_OCCURRED"

/-- Modelled from the spec: `syntaxErrorOccurred(error)` carries the
failed lookup's error. -/
def syntaxErrorOccurred (error : String) : Action :=
  { Action.bare SYNTAX_ERROR_OCCURRED with syntaxError := some error }

/-- The sample-documents slice.  `loadSampleDocuments` spreads a `type`
key into the state (a quirk of the source's `{...state, type: ...,
isLoading: true}`), so the state record carries an optional `type`. -/
structure SDState where
  matching : Option JsValue
  notmatching : Option JsValue
  isLoading : Bool
  type : Option String
deriving DecidableEq

/-- The `INITIAL_STATE` of the sample-documents module. -/
def INITIAL_STATE : SDState :=
  { matching := none, notmatching := none, isLoading := false, type := none }

/-- The `SAMPLE_DOCUMENTS_FETCHED` handler: install both documents, clear
`isLoading`. -/
def refreshSampleDocuments (state : SDState) (action : Action) : SDState :=
  { state with
    matching := action.matching
    notmatching := action.notmatching
    isLoading := false }

/-- The `LOADING_SAMPLE_DOCUMENTS` handler: set `isLoading` (and the spread-in
`type` key). -/
def loadSampleDocuments (state : SDState) (_action : Action) : SDState :=
  { state with type := some LOADING_SAMPLE_DOCUMENTS, isLoading := true }

/-- Action creator `sampleDocumentsFetched` (the source passes a
`{matching, notmatching}` object). -/
def sampleDocumentsFetched (matching notmatching : Option JsValue) : Action :=
  { Action.bare SAMPLE_DOCUMENTS_FETCHED with
    matching := matching
    notmatching := notmatching }

/-- Action creator `loadingSampleDocuments`. -/
def loadingSampleDocuments : Action := Action.bare LOADING_SAMPLE_DOCUMENTS

/-- The action-type lookup table of the module. -/
def MAPPINGS (t : String) : Option (SDState → Action → SDState) :=
  if t = SAMPLE_DOCUMENTS_FETCHED then some refreshSampleDocuments
  else if t = LOADING_SAMPLE_DOCUMENTS then some loadSampleDocuments
  else none

/-- The sample-documents reducer (identical in both variants). -/
def reducer (state : SDState) (action : Action) : SDState :=
  match MAPPINGS action.type with
  | some fn => fn state action
  | none => state

/-- Run the reducer over a dispatched action list. -/
def applyAll (state : SDState) (actions : List Action) : SDState :=
  actions.foldl reducer state

/-- JS truthiness of a value, for the source's `matching[0] ? matching[0]
: null`. -/
def jsTruthy : JsValue → Bool
  | JsValue.str s => !s.data.isEmpty
  | JsValue.num i => decide (i ≠ 0)
  | JsValue.bool b => b
  | JsValue.null => false
  | JsValue.arr _ => true
  | JsValue.obj _ => true

/-- The JS expression `docs[0] ? docs[0] : null`. -/
def firstOrNull (docs : List JsValue) : Option JsValue :=
  match docs with
  | [] => none
  | d :: _ => if jsTruthy d then some d else none

namespace Find

/-! #### The find-based fetch variant -/

/-- Outcomes of the two `dataService.find` calls the thunk makes, as the
callbacks would receive them. -/
structure FindOutcome where
  matchingFind : Except String (List JsValue)
  notmatchingFind : Except String (List JsValue)
deriving DecidableEq

/-- The thunk `fetchSampleDocuments(validator)` of the find-based variant, as the
list of actions it dispatches: the loading action first, then — only when
a data service is connected and *both* finds succeed — the settled pair.
A failed find dispatches nothing (the `if (!error)` guards have no else
branch). -/
def fetchSampleDocuments (hasDataService : Bool) (oc : FindOutcome) : List Action :=
  loadingSampleDocuments ::
    (if hasDataService then
      match oc.matchingFind with
      | Except.error _ => []
      | Except.ok matching =>
        match oc.notmatchingFind with
        | Except.error _ => []
        | Except.ok notmatching =>
          [sampleDocumentsFetched (firstOrNull matching) (firstOrNull notmatching)]
    else [])

end Find

namespace Agg

/-! #### The aggregation-based fetch variant -/

/-- Collection size cap before the negation scan. -/
def MAX_LIMIT : Nat := 100000

/-- The pipeline `getSampleDocuments` runs: `$match` + `$limit 1`, with a
pre-limiting `$limit MAX_LIMIT` stage unshifted when the collection is
large. -/
def samplePipeline (query : JsValue) (count : Nat) : List JsValue :=
  (if count > MAX_LIMIT
    then [JsValue.obj (JsFields.fcons "$limit" (JsValue.num (Int.ofNat MAX_LIMIT)) JsFields.fnil)]
    else []) ++
  [JsValue.obj (JsFields.fcons "$match" query JsFields.fnil),
   JsValue.obj (JsFields.fcons "$limit" (JsValue.num 1) JsFields.fnil)]

/-- The helper `zeroDocuments(dispatch, error)`: surface the error and settle the
pair as `{matching: null, notmatching: null}`. -/
def zeroDocuments (error : String) : List Action :=
  [syntaxErrorOccurred error, sampleDocumentsFetched none none]

/-- Outcome of one `dataService.aggregate` call together with its
cursor's `toArray`. -/
inductive AggOutcome : Type where
  | aggError : String → AggOutcome
  | toArrayError : String → AggOutcome
  | docs : List JsValue → AggOutcome
deriving DecidableEq

/-- The helper `getSampleDocuments(docsOptions, callback)`: on an aggregate or
`toArray` error settle through `zeroDocuments`, otherwise hand the
documents to the continuation. -/
def getSampleDocuments (outcome : AggOutcome) (callback : List JsValue → List Action) :
    List Action :=
  match outcome with
  | AggOutcome.aggError e => zeroDocuments e
  | AggOutcome.toArrayError e => zeroDocuments e
  | AggOutcome.docs ds => callback ds

/-- Outcomes of the external calls one fetch makes: the `count`, then the
matching and the negation aggregation. -/
structure AggFetchOutcome where
  count : Except String Nat
  matchingAgg : AggOutcome
  notmatchingAgg : AggOutcome
deriving DecidableEq

/-- The thunk `fetchSampleDocuments(validator)` of the aggregation-based variant, as
the list of actions it dispatches: the loading action first; with a data
service connected, a failed `count` settles through `zeroDocuments`, and
each aggregation settles through `getSampleDocuments`, so every failure
path ends in `zeroDocuments` and the success path in the fetched pair. -/
def fetchSampleDocuments (hasDataService : Bool) (oc : AggFetchOutcome) : List Action :=
  loadingSampleDocuments ::
    (if hasDataService then
      match oc.count with
      | Except.error e => zeroDocuments e
      | Except.ok _ =>
        getSampleDocuments oc.matchingAgg fun matching =>
          getSampleDocuments oc.notmatchingAgg fun notmatching =>
            [sampleDocumentsFetched (firstOrNull matching) (firstOrNull notmatching)]
    else [])

/-- The first failure a fetch runs into, in the order the source makes its
calls, if any. -/
def firstFailure (oc : AggFetchOutcome) : Option String :=
  match oc.count with
  | Except.error e => some e
  | Except.ok _ =>
    match oc.matchingAgg with
    | AggOutcome.aggError e => some e
    | AggOutcome.toArrayError e => some e
    | AggOutcome.docs _ =>
      match oc.notmatchingAgg with
      | AggOutcome.aggError e => some e
      | AggOutcome.toArrayError e => some e
      | AggOutcome.docs _ => none

end Agg

end SampleDocuments

/-! ## Shared reducer-step lemmas -/

namespace SampleDocuments

/-- One loading dispatch sets `isLoading` (and spreads in the `type` key). -/
theorem reducer_loading (t : SDState) :
    reducer t loadingSampleDocuments =
      { t with type := some LOADING_SAMPLE_DOCUMENTS, isLoading := true } := rfl

/-- One settled dispatch installs the pair and clears `isLoading`. -/
theorem reducer_fetched (t : SDState) (m n : Option JsValue) :
    reducer t (sampleDocumentsFetched m n) =
      { t with matching := m, notmatching := n, isLoading := false } := rfl

/-- The surfaced-error action is not registered in this module's table, so
it leaves the sample-documents slice unchanged. -/
theorem reducer_syntax_error (t : SDState) (e : String) :
    reducer t (syntaxErrorOccurred e) = t := rfl

/-- Type projection of the loading action. -/
theorem loading_type : loadingSampleDocuments.type = LOADING_SAMPLE_DOCUMENTS := rfl

/-- Type projection of the settled action. -/
theorem fetched_type (m n : Option JsValue) :
    (sampleDocumentsFetched m n).type = SAMPLE_DOCUMENTS_FETCHED := rfl

/-- Type projection of the surfaced-error action. -/
theorem syntax_error_type (e : String) :
    (syntaxErrorOccurred e).type = SYNTAX_ERROR_OCCURRED := rfl

end SampleDocuments

/-! ## Round-trip of the renderer through the parser -/

theorem digitOf_toNat (d : Nat) (h : d < 10) : (digitOf d).toNat = 48 + d := by
  interval_cases d <;> rfl

theorem digitOf_is_digit (d : Nat) (h : d < 10) : digitChar (digitOf d) = true := by
  interval_cases d <;> rfl

theorem natChars_snoc (n : Nat) :
    natChars n = (if n < 10 then [] else natChars (n / 10)) ++ [digitOf (n % 10)] := by
  by_cases h : n < 10
  · rw [natChars]
    simp [h, Nat.mod_eq_of_lt h]
  · rw [natChars]
    simp [h]

theorem natChars_ne_nil (n : Nat) : natChars n ≠ [] := by
  rw [natChars_snoc]
  simp

theorem natChars_all_digits (n : Nat) : ∀ c ∈ natChars n, digitChar c = true := by
  induction n using Nat.strong_induction_on with
  | _ n ih =>
    rw [natChars_snoc]
    intro c hc
    rcases List.mem_append.mp hc with h1 | h2
    · by_cases h : n < 10
      · simp [h] at h1
      · exact ih (n / 10) (Nat.div_lt_self (by omega) (by omega)) c (by simpa [h] using h1)
    · rw [List.mem_singleton] at h2
      subst h2
      exact digitOf_is_digit _ (Nat.mod_lt _ (by omega))

theorem digitsVal_natChars (n : Nat) : digitsVal (natChars n) = n := by
  induction n using Nat.strong_induction_on with
  | _ n ih =>
    rw [natChars_snoc]
    unfold digitsVal
    rw [List.foldl_append]
    by_cases h : n < 10
    · simp [h, digitOf_toNat (n % 10) (Nat.mod_lt _ (by omega))]
    · simp only [if_neg h]
      have := ih (n / 10) (Nat.div_lt_self (by omega) (by omega))
      unfold digitsVal at this
      simp [this, digitOf_toNat (n % 10) (Nat.mod_lt _ (by omega))]
      omega

theorem spanDigits_exact (ds : List Char) (hds : ∀ c ∈ ds, digitChar c = true)
    (rest : List Char) (hr : delimHead rest = true) :
    spanDigits (ds ++ rest) = (ds, rest) := by
  induction ds with
  | nil =>
    cases rest with
    | nil => rfl
    | cons c t =>
      simp only [delimHead, Bool.or_eq_true, decide_eq_true_eq] at hr
      have : digitChar c = false := by
        rcases hr with (h | h) | h <;> simp [digitChar, h]
      simp [spanDigits, this]
  | cons c t ih =>
    have hc : digitChar c = true := hds c (by simp)
    have ht := ih fun x hx => hds x (by simp [hx])
    simp [spanDigits, hc, ht]

theorem spanIdent_exact (ds : List Char) (hds : ∀ c ∈ ds, identChar c = true)
    (rest : List Char) (hr : delimHead rest = true) :
    spanIdent (ds ++ rest) = (ds, rest) := by
  induction ds with
  | nil =>
    cases rest with
    | nil => rfl
    | cons c t =>
      simp only [delimHead, Bool.or_eq_true, decide_eq_true_eq] at hr
      have : identChar c = false := by
        rcases hr with (h | h) | h <;> simp [identChar, h]
      simp [spanIdent, this]
  | cons c t ih =>
    have hc : identChar c = true := hds c (by simp)
    have ht := ih fun x hx => hds x (by simp [hx])
    simp [spanIdent, hc, ht]

theorem scanString_exact (s : List Char)
    (h : ∀ c ∈ s, c.toNat ≠ 34 ∧ c.toNat ≠ 92) (q : Char) (hq : q.toNat = 34)
    (rest : List Char) :
    scanString 34 (s ++ q :: rest) = some (s, rest) := by
  induction s with
  | nil => simp [scanString, hq]
  | cons c t ih =>
    have hc := h c (by simp)
    have ht := ih fun x hx => h x (by simp [hx])
    simp [scanString, hc.1, hc.2, ht]

theorem dropWs_cons (c : Char) (cs : List Char) (h : wsChar c = false) :
    dropWs (c :: cs) = c :: cs := by
  simp [dropWs, h]

theorem plainString_chars (s : String) (h : plainString s = true) :
    ∀ c ∈ s.data, c.toNat ≠ 34 ∧ c.toNat ≠ 92 := by
  intro c hc
  simp only [plainString, List.all_eq_true, Bool.and_eq_true, decide_eq_true_eq] at h
  exact h c hc

theorem digitChar_facts (c : Char) (h : digitChar c = true) :
    wsChar c = false ∧ c.toNat ≠ 125 ∧ c.toNat ≠ 93 ∧ c.toNat ≠ 44 := by
  simp only [digitChar, Bool.and_eq_true, decide_eq_true_eq] at h
  refine ⟨?_, by omega, by omega, by omega⟩
  simp only [wsChar, Bool.or_eq_false_iff, decide_eq_false_iff_not]
  omega

theorem natChars_cons (n : Nat) :
    ∃ c t, natChars n = c :: t ∧ digitChar c = true := by
  cases h : natChars n with
  | nil => exact absurd h (natChars_ne_nil n)
  | cons c t =>
    refine ⟨c, t, rfl, natChars_all_digits n c ?_⟩
    rw [h]
    exact List.mem_cons_self c t

theorem renderV_head (v : JsValue) :
    ∃ c t, renderV v = c :: t ∧ wsChar c = false ∧
      c.toNat ≠ 125 ∧ c.toNat ≠ 93 ∧ c.toNat ≠ 44 := by
  cases v with
  | str s => exact ⟨'"', _, rfl, by decide, by decide, by decide, by decide⟩
  | num i =>
    by_cases hi : i < 0
    · refine ⟨'-', natChars i.natAbs, ?_, by decide, by decide, by decide, by decide⟩
      simp [renderV, intChars, hi]
    · obtain ⟨c, t, hct, hc⟩ := natChars_cons i.natAbs
      obtain ⟨h1, h2, h3, h4⟩ := digitChar_facts c hc
      refine ⟨c, t, ?_, h1, h2, h3, h4⟩
      simp [renderV, intChars, hi, hct]
  | bool b => cases b with
    | true => exact ⟨'t', _, rfl, by decide, by decide, by decide, by decide⟩
    | false => exact ⟨'f', _, rfl, by decide, by decide, by decide, by decide⟩
  | null => exact ⟨'n', _, rfl, by decide, by decide, by decide, by decide⟩
  | arr es => exact ⟨'[', _, rfl, by decide, by decide, by decide, by decide⟩
  | obj fs => exact ⟨'{', _, rfl, by decide, by decide, by decide, by decide⟩

theorem renderE_cons_head (w : JsValue) (es : JsElems) :
    ∃ c t, renderE (JsElems.econs w es) = c :: t ∧ wsChar c = false ∧
      c.toNat ≠ 125 ∧ c.toNat ≠ 93 ∧ c.toNat ≠ 44 := by
  obtain ⟨c, t, hct, h1, h2, h3, h4⟩ := renderV_head w
  cases es with
  | enil => exact ⟨c, t, by simp [renderE, hct], h1, h2, h3, h4⟩
  | econs x xs =>
    exact ⟨c, t ++ ',' :: renderE (JsElems.econs x xs), by simp [renderE, hct], h1, h2, h3, h4⟩

theorem renderF_cons_head (k : String) (v : JsValue) (fs : JsFields) :
    ∃ t, renderF (JsFields.fcons k v fs) = '"' :: t := by
  cases fs with
  | fnil => exact ⟨k.data ++ '"' :: ':' :: renderV v, by simp [renderF]⟩
  | fcons k2 v2 fs2 =>
    exact ⟨k.data ++ '"' :: ':' :: renderV v ++ ',' :: renderF (JsFields.fcons k2 v2 fs2),
      by simp [renderF]⟩

theorem parseKey_quoted (k : String) (hk : plainString k = true) (tail : List Char) :
    parseKey ('"' :: (k.data ++ '"' :: tail)) = some (k, tail) := by
  simp only [parseKey]
  rw [dropWs_cons _ _ (by decide)]
  simp [scanString_exact k.data (plainString_chars k hk) '"' (by decide) tail]

mutual

theorem parse_render_val (v : JsValue) (f : Nat) (rest : List Char)
    (hwf : wfV v = true) (hd : delimHead rest = true)
    (hlen : (renderV v).length < f) :
    parseValue f (renderV v ++ rest) = some (v, rest) := by
  cases f with
  | zero => omega
  | succ f =>
    cases v with
    | str s =>
      have harg : renderV (JsValue.str s) ++ rest = '"' :: (s.data ++ '"' :: rest) := by
        simp [renderV]
      rw [harg]
      simp only [parseValue]
      rw [dropWs_cons _ _ (by decide)]
      simp only [wfV] at hwf
      simp [scanString_exact s.data (plainString_chars s hwf) '"' (by decide) rest,
        show digitChar '"' = false from by decide]
    | num i =>
      by_cases hi : i < 0
      · have harg : renderV (JsValue.num i) ++ rest = '-' :: (natChars i.natAbs ++ rest) := by
          simp [renderV, intChars, hi]
        rw [harg]
        simp only [parseValue]
        rw [dropWs_cons _ _ (by decide)]
        obtain ⟨c, t, hct, hc⟩ := natChars_cons i.natAbs
        have hspan := spanDigits_exact (natChars i.natAbs) (natChars_all_digits _) rest hd
        rw [hct] at hspan
        simp only [List.cons_append] at hspan
        simp [hct, hspan, show digitChar '-' = false from by decide]
        rw [← hct, digitsVal_natChars]
        omega
      · have harg : renderV (JsValue.num i) ++ rest = natChars i.natAbs ++ rest := by
          simp [renderV, intChars, hi]
        obtain ⟨c, t, hct, hc⟩ := natChars_cons i.natAbs
        obtain ⟨hws, _, _, _⟩ := digitChar_facts c hc
        rw [harg, hct]
        simp only [parseValue, List.cons_append]
        rw [dropWs_cons _ _ hws]
        have hspan := spanDigits_exact (natChars i.natAbs) (natChars_all_digits _) rest hd
        rw [hct] at hspan
        simp only [List.cons_append] at hspan
        simp [hc, hspan]
        rw [← hct, digitsVal_natChars]
        omega
    | bool b =>
      cases b with
      | true =>
        have harg : renderV (JsValue.bool true) ++ rest = 't' :: (['r', 'u', 'e'] ++ rest) := by
          simp [renderV]
        rw [harg]
        simp only [parseValue]
        rw [dropWs_cons _ _ (by decide)]
        have hspan := spanIdent_exact ['t', 'r', 'u', 'e'] (by decide) rest hd
        simp only [List.cons_append, List.nil_append] at hspan
        simp [hspan, show digitChar 't' = false from by decide]
      | false =>
        have harg : renderV (JsValue.bool false) ++ rest
            = 'f' :: (['a', 'l', 's', 'e'] ++ rest) := by
          simp [renderV]
        rw [harg]
        simp only [parseValue]
        rw [dropWs_cons _ _ (by decide)]
        have hspan := spanIdent_exact ['f', 'a', 'l', 's', 'e'] (by decide) rest hd
        simp only [List.cons_append, List.nil_append] at hspan
        simp [hspan, show digitChar 'f' = false from by decide]
    | null =>
      have harg : renderV JsValue.null ++ rest = 'n' :: (['u', 'l', 'l'] ++ rest) := by
        simp [renderV]
      rw [harg]
      simp only [parseValue]
      rw [dropWs_cons _ _ (by decide)]
      have hspan := spanIdent_exact ['n', 'u', 'l', 'l'] (by decide) rest hd
      simp only [List.cons_append, List.nil_append] at hspan
      simp [hspan, show digitChar 'n' = false from by decide]
    | arr es =>
      cases es with
      | enil =>
        have harg : renderV (JsValue.arr JsElems.enil) ++ rest = '[' :: ']' :: rest := by
          simp [renderV, renderE]
        rw [harg]
        simp only [parseValue]
        rw [dropWs_cons _ _ (by decide)]
        simp [show digitChar '[' = false from by decide, dropWs_cons ']' rest (by decide)]
      | econs w es =>
        obtain ⟨hw1, hw2⟩ : wfV w = true ∧ wfE es = true := by
          simpa [wfV, wfE, Bool.and_eq_true] using hwf
        obtain ⟨c0, t0, he, hws0, _, h93, _⟩ := renderE_cons_head w es
        have harg : renderV (JsValue.arr (JsElems.econs w es)) ++ rest
            = '[' :: (c0 :: (t0 ++ ']' :: rest)) := by
          simp [renderV, he]
        have hkey := parse_render_elems w es f rest hw1 hw2 (by
          simp only [renderV, List.length_cons, List.length_append] at hlen
          omega)
        rw [he] at hkey
        simp only [List.cons_append] at hkey
        rw [harg]
        simp only [parseValue]
        rw [dropWs_cons _ _ (by decide)]
        simp [hkey, h93, dropWs_cons c0 (t0 ++ ']' :: rest) hws0,
          show digitChar '[' = false from by decide]
    | obj fs =>
      cases fs with
      | fnil =>
        have harg : renderV (JsValue.obj JsFields.fnil) ++ rest = '{' :: '}' :: rest := by
          simp [renderV, renderF]
        rw [harg]
        simp only [parseValue]
        rw [dropWs_cons _ _ (by decide)]
        simp [show digitChar '{' = false from by decide, dropWs_cons '}' rest (by decide)]
      | fcons k v2 fs =>
        obtain ⟨hk, hv2, hfs⟩ : plainString k = true ∧ wfV v2 = true ∧ wfF fs = true := by
          simpa [wfV, wfF, Bool.and_eq_true, and_assoc] using hwf
        obtain ⟨t0, he⟩ := renderF_cons_head k v2 fs
        have harg : renderV (JsValue.obj (JsFields.fcons k v2 fs)) ++ rest
            = '{' :: ('"' :: (t0 ++ '}' :: rest)) := by
          simp [renderV, he]
        have hkey := parse_render_members k v2 fs f rest hk hv2 hfs (by
          simp only [renderV, List.length_cons, List.length_append] at hlen
          omega)
        rw [he] at hkey
        simp only [List.cons_append] at hkey
        rw [harg]
        simp only [parseValue]
        rw [dropWs_cons _ _ (by decide)]
        simp [hkey, dropWs_cons '"' (t0 ++ '}' :: rest) (by decide),
          show digitChar '{' = false from by decide]
termination_by sizeOf v

theorem parse_render_elems (v : JsValue) (es : JsElems) (f : Nat) (rest : List Char)
    (hwv : wfV v = true) (hwe : wfE es = true)
    (hlen : (renderE (JsElems.econs v es)).length + 1 < f) :
    parseElems f (renderE (JsElems.econs v es) ++ ']' :: rest)
      = some (JsElems.econs v es, rest) := by
  cases f with
  | zero => omega
  | succ f =>
    cases es with
    | enil =>
      have hv := parse_render_val v f (']' :: rest) hwv rfl (by
        simp only [renderE, List.length_cons] at hlen
        omega)
      have harg : renderE (JsElems.econs v JsElems.enil) ++ ']' :: rest
          = renderV v ++ ']' :: rest := by
        simp [renderE]
      rw [harg]
      simp only [parseElems]
      rw [hv]
      simp [dropWs_cons ']' rest (by decide)]
    | econs w es =>
      obtain ⟨hw1, hw2⟩ : wfV w = true ∧ wfE es = true := by
        simpa [wfE, Bool.and_eq_true] using hwe
      have harg : renderE (JsElems.econs v (JsElems.econs w es)) ++ ']' :: rest
          = renderV v ++ ',' :: (renderE (JsElems.econs w es) ++ ']' :: rest) := by
        simp [renderE]
      have hv := parse_render_val v f
        (',' :: (renderE (JsElems.econs w es) ++ ']' :: rest)) hwv rfl (by
          simp only [renderE, List.length_cons, List.length_append] at hlen
          omega)
      have hkey := parse_render_elems w es f rest hw1 hw2 (by
        simp only [renderE, List.length_cons, List.length_append] at hlen
        omega)
      rw [harg]
      simp only [parseElems]
      rw [hv]
      simp [hkey,
        dropWs_cons ',' (renderE (JsElems.econs w es) ++ ']' :: rest) (by decide)]
termination_by sizeOf (JsElems.econs v es)

theorem parse_render_members (k : String) (v : JsValue) (fs : JsFields) (f : Nat)
    (rest : List Char) (hk : plainString k = true) (hwv : wfV v = true)
    (hwf : wfF fs = true)
    (hlen : (renderF (JsFields.fcons k v fs)).length + 1 < f) :
    parseMembers f (renderF (JsFields.fcons k v fs) ++ '}' :: rest)
      = some (JsFields.fcons k v fs, rest) := by
  cases f with
  | zero => omega
  | succ f =>
    cases fs with
    | fnil =>
      have harg : renderF (JsFields.fcons k v JsFields.fnil) ++ '}' :: rest
          = '"' :: (k.data ++ '"' :: (':' :: (renderV v ++ '}' :: rest))) := by
        simp [renderF]
      have hv := parse_render_val v f ('}' :: rest) hwv rfl (by
        simp only [renderF, List.length_cons, List.length_append] at hlen
        omega)
      rw [harg]
      simp only [parseMembers]
      rw [parseKey_quoted k hk _]
      simp [hv, dropWs_cons ':' (renderV v ++ '}' :: rest) (by decide),
        dropWs_cons '}' rest (by decide)]
    | fcons k2 v2 fs2 =>
      obtain ⟨hk2, hv2, hfs2⟩ : plainString k2 = true ∧ wfV v2 = true ∧ wfF fs2 = true := by
        simpa [wfF, Bool.and_eq_true, and_assoc] using hwf
      have harg : renderF (JsFields.fcons k v (JsFields.fcons k2 v2 fs2)) ++ '}' :: rest
          = '"' :: (k.data ++ '"' :: (':' ::
              (renderV v ++ ',' :: (renderF (JsFields.fcons k2 v2 fs2) ++ '}' :: rest)))) := by
        simp [renderF]
      have hv := parse_render_val v f
        (',' :: (renderF (JsFields.fcons k2 v2 fs2) ++ '}' :: rest)) hwv rfl (by
          simp only [renderF, List.length_cons, List.length_append] at hlen
          omega)
      have hkey := parse_render_members k2 v2 fs2 f rest hk2 hv2 hfs2 (by
        simp only [renderF, List.length_cons, List.length_append] at hlen
        omega)
      rw [harg]
      simp only [parseMembers]
      rw [parseKey_quoted k hk _]
      simp [hv, hkey,
        dropWs_cons ':'
          (renderV v ++ ',' :: (renderF (JsFields.fcons k2 v2 fs2) ++ '}' :: rest)) (by decide),
        dropWs_cons ','
          (renderF (JsFields.fcons k2 v2 fs2) ++ '}' :: rest) (by decide)]
termination_by sizeOf (JsFields.fcons k v fs)

end

/-- Parsing the canonical rendering of a well-formed value recovers the
value: the renderer/parser round-trip behind `EJSON.stringify` and the
sandbox evaluation. -/
theorem parseJsExpr_render (v : JsValue) (hwf : wfV v = true) :
    parseJsExpr (EJSON.stringify v) = some v := by
  unfold parseJsExpr EJSON.stringify
  have h := parse_render_val v ((renderV v).length + 1) [] hwf rfl (by omega)
  simp only [List.append_nil] at h
  rw [show (String.mk (renderV v)).data = renderV v from rfl]
  rw [h]
  simp [dropWs]

/-! ## The claims -/

/-- C1.  Counterexample to the claim as stated: dispatching
`VALIDATOR_SAVED` does *not* update the previous-validator snapshot to the
just-saved value (nor does the state of this module have an `error` field
or a `prevValidation` triple at all): from a state whose snapshot is
`"old"`, saving `"new"` leaves the snapshot at `"old"`. -/
theorem saved_leaves_prevValidator_counterexample :
    (Validation.reducer
      { validator := some "a"
        validationAction := "warning"
        validationLevel := "moderate"
        isChanged := true
        syntaxError := none
        prevValidator := some "old" }
      (Validation.validatorSaved "new")).prevValidator = some "old" ∧
    (some "old" : Option String) ≠ some "new" := by
  exact ⟨rfl, by decide⟩

/-- C1 (amended).  The `VALIDATOR_SAVED` transition clears `isChanged` and
`syntaxError` and stores the saved validator text; every other field —
`prevValidator` and the action/level in particular — is left unchanged,
and no snapshot is taken. -/
theorem saved_clears_flags_updates_only_validator (s : Validation.VState) (v : String) :
    Validation.reducer s (Validation.validatorSaved v) =
      { s with isChanged := false, validator := some v, syntaxError := none } := rfl

/-- C2.  Counterexample to the claim as stated: from a state with no
snapshot, `VALIDATOR_CANCELED` sets `validator` to `undefined` rather than
the initial default `""`, and it does not restore `validationAction` to
any snapshot or default value. -/
theorem canceled_no_defaults_counterexample :
    (Validation.reducer
      { validator := some "x"
        validationAction := "error"
        validationLevel := "strict"
        isChanged := true
        syntaxError := none
        prevValidator := none }
      Validation.validatorCanceled).validator ≠ Validation.INITIAL_STATE.validator ∧
    (Validation.reducer
      { validator := some "x"
        validationAction := "error"
        validationLevel := "strict"
        isChanged := true
        syntaxError := none
        prevValidator := none }
      Validation.validatorCanceled).validationAction ≠
        Validation.INITIAL_STATE.validationAction := by
  exact ⟨by decide, by decide⟩

/-- C2 (amended).  `VALIDATOR_CANCELED` restores only the validator text,
copying the `prevValidator` snapshot verbatim (`undefined` when none was
ever taken, not the initial default), clears `isChanged` and
`syntaxError`, and leaves `validationAction` and `validationLevel`
untouched. -/
theorem canceled_restores_validator_from_snapshot_only (s : Validation.VState) :
    Validation.reducer s Validation.validatorCanceled =
      { s with isChanged := false, validator := s.prevValidator, syntaxError := none } := rfl

/-- C3.  Counterexample to the claim as stated: dispatching the
validator-changed action with the empty string yields a *non-null*
`syntaxError` — `checkValidator` has no empty-text short-circuit, and the
sandboxed evaluation of `__result = ` (the empty expression) throws. -/
theorem empty_text_syntax_error_counterexample :
    (Validation.reducer Validation.INITIAL_STATE
      (Validation.validatorChanged "")).syntaxError ≠ none := by decide

/-- C3 (amended).  Dispatching the validator-changed action with the empty
string marks the record dirty and stores the empty text, but records the
evaluation error of the empty expression as `syntaxError` (there is no
"no rule" short-circuit). -/
theorem empty_text_changed_marks_dirty_with_syntax_error (s : Validation.VState) :
    (Validation.reducer s (Validation.validatorChanged "")).isChanged = true ∧
    (Validation.reducer s (Validation.validatorChanged "")).validator = some "" ∧
    (Validation.reducer s (Validation.validatorChanged "")).syntaxError =
      (Validation.checkValidator "").syntaxError ∧
    (Validation.checkValidator "").syntaxError ≠ none := by
  exact ⟨rfl, rfl, rfl, by decide⟩

/-- C4.  Counterexample to the claim as stated: in the find-based fetch
variant, when the negation lookup fails the fetch does not settle at all —
only the loading action is dispatched, so no `{matching: null, notmatching:
null}` pair and no surfaced error ever reach the store. -/
theorem find_variant_drops_failure_counterexample :
    SampleDocuments.Find.fetchSampleDocuments true
      { matchingFind := Except.ok [JsValue.obj JsFields.fnil]
        notmatchingFind := Except.error "negation lookup failed" } =
      [SampleDocuments.loadingSampleDocuments] ∧
    SampleDocuments.loadingSampleDocuments.type ≠
      SampleDocuments.SAMPLE_DOCUMENTS_FETCHED ∧
    SampleDocuments.loadingSampleDocuments.syntaxError = none := by
  exact ⟨rfl, by decide, rfl⟩

/-- C4 (amended).  In the aggregation-based fetch variant, whenever any
external call fails (the count, either aggregation, or either cursor
read), the fetch settles with `matching = null` and `notmatching = null`
together with a surfaced error carrying that failure — never a
half-updated pair.  In the find-based variant, by contrast, a failed
lookup dispatches nothing after the loading action: no settle and no
surfaced error (and hence also never a half pair). -/
theorem lookup_failure_settles_null_pair :
    (∀ (oc : SampleDocuments.Agg.AggFetchOutcome) (e : String),
      SampleDocuments.Agg.firstFailure oc = some e →
        SampleDocuments.Agg.fetchSampleDocuments true oc =
          [SampleDocuments.loadingSampleDocuments,
           SampleDocuments.syntaxErrorOccurred e,
           SampleDocuments.sampleDocumentsFetched none none]) ∧
    (∀ (oc : SampleDocuments.Find.FindOutcome) (e : String),
      oc.matchingFind = Except.error e ∨ oc.notmatchingFind = Except.error e →
        SampleDocuments.Find.fetchSampleDocuments true oc =
          [SampleDocuments.loadingSampleDocuments]) := by
  constructor
  · intro oc e h
    obtain ⟨c, m, n⟩ := oc
    cases c with
    | error e2 =>
      simp [SampleDocuments.Agg.firstFailure] at h
      subst h
      rfl
    | ok k =>
      cases m <;> cases n <;>
        simp_all [SampleDocuments.Agg.firstFailure,
          SampleDocuments.Agg.fetchSampleDocuments,
          SampleDocuments.Agg.getSampleDocuments, SampleDocuments.Agg.zeroDocuments]
  · intro oc e h
    obtain ⟨m, n⟩ := oc
    cases m <;> cases n <;>
      simp_all [SampleDocuments.Find.fetchSampleDocuments]

/-- Witness for `lookup_failure_settles_null_pair` at concrete failing
outcomes. -/
theorem lookup_failure_settles_null_pair_witness :
    SampleDocuments.Agg.fetchSampleDocuments true
      { count := Except.ok 3
        matchingAgg := SampleDocuments.Agg.AggOutcome.docs [JsValue.obj JsFields.fnil]
        notmatchingAgg := SampleDocuments.Agg.AggOutcome.aggError "boom" } =
      [SampleDocuments.loadingSampleDocuments,
       SampleDocuments.syntaxErrorOccurred "boom",
       SampleDocuments.sampleDocumentsFetched none none] ∧
    SampleDocuments.Find.fetchSampleDocuments true
      { matchingFind := Except.error "boom"
        notmatchingFind := Except.ok [] } =
      [SampleDocuments.loadingSampleDocuments] := by
  exact ⟨lookup_failure_settles_null_pair.1 _ "boom" (by decide),
         lookup_failure_settles_null_pair.2 _ "boom" (Or.inl rfl)⟩

/-- C5.  Counterexample to the claim as stated: in the find-based fetch
variant a failing find dispatches only the loading action, so `isLoading`
is never set back to false — the complete dispatch list of the invocation
contains no settling action and leaves `isLoading = true`. -/
theorem find_variant_isLoading_stuck_counterexample :
    (SampleDocuments.applyAll SampleDocuments.INITIAL_STATE
      (SampleDocuments.Find.fetchSampleDocuments true
        { matchingFind := Except.error "find failed"
          notmatchingFind := Except.ok [] })).isLoading = true ∧
    ((SampleDocuments.Find.fetchSampleDocuments true
        { matchingFind := Except.error "find failed"
          notmatchingFind := Except.ok [] }).filter fun a =>
      a.type = SampleDocuments.SAMPLE_DOCUMENTS_FETCHED).length = 0 := by
  exact ⟨rfl, by decide⟩

/-- C5 (amended).  In the aggregation-based fetch variant with a connected
data service, the loading action is dispatched first (synchronously) and
sets `isLoading`, and exactly one settling dispatch follows — on the
success path and on every failure path alike — after which `isLoading` is
false again.  (The find-based variant violates this on a failed lookup,
and either variant invoked without a data service dispatches only the
loading action.) -/
theorem agg_fetch_isLoading_lifecycle (s : SampleDocuments.SDState)
    (oc : SampleDocuments.Agg.AggFetchOutcome) :
    (SampleDocuments.Agg.fetchSampleDocuments true oc).head? =
      some SampleDocuments.loadingSampleDocuments ∧
    (SampleDocuments.reducer s SampleDocuments.loadingSampleDocuments).isLoading = true ∧
    ((SampleDocuments.Agg.fetchSampleDocuments true oc).filter fun a =>
      a.type = SampleDocuments.SAMPLE_DOCUMENTS_FETCHED).length = 1 ∧
    (SampleDocuments.applyAll s
      (SampleDocuments.Agg.fetchSampleDocuments true oc)).isLoading = false := by
  have h1 : (SampleDocuments.LOADING_SAMPLE_DOCUMENTS =
      SampleDocuments.SAMPLE_DOCUMENTS_FETCHED) = False := by decide
  have h2 : (SampleDocuments.SYNTAX_ERROR_OCCURRED =
      SampleDocuments.SAMPLE_DOCUMENTS_FETCHED) = False := by decide
  obtain ⟨c, m, n⟩ := oc
  refine ⟨rfl, rfl, ?_, ?_⟩ <;>
    cases c <;> cases m <;> cases n <;>
      simp [SampleDocuments.Agg.fetchSampleDocuments,
        SampleDocuments.Agg.getSampleDocuments, SampleDocuments.Agg.zeroDocuments,
        SampleDocuments.applyAll, SampleDocuments.reducer_loading,
        SampleDocuments.reducer_fetched, SampleDocuments.reducer_syntax_error,
        List.filter, SampleDocuments.loading_type, SampleDocuments.fetched_type,
        SampleDocuments.syntax_error_type, h1, h2]

/-- C6.  The claim is what the surrounding code intends (the earlier
variant even carries a `TODO: dispatch(setError())` beside its error
check), but the code reads `data[0].options` *before* inspecting `error`:
when the listing fails and the callback receives an error with no data,
the member access throws and no error is ever stored — evaluated here at
that failing input. -/
theorem fetchValidation_error_callback_throws :
    Validation.fetchValidationCallback
        (some "not authorized on db to execute command") none =
      Except.error "TypeError: Cannot read property 0 of undefined" ∧
    Validation.fetchValidationCallback (some "err") (some []) =
      Except.error "TypeError: Cannot read property options of undefined" := by
  exact ⟨rfl, rfl⟩

/-- C7.  Counterexample to the claim as stated: dispatching the
action-changed transition does not mark the record dirty — from the
initial state, `isChanged` stays `false`. -/
theorem action_changed_not_dirty_counterexample :
    ¬ (Validation.reducer Validation.INITIAL_STATE
        (Validation.validationActionChanged "error")).isChanged = true := by decide

/-- C7 (amended).  `VALIDATION_ACTION_CHANGED` and
`VALIDATION_LEVEL_CHANGED` set exactly their own field; `isChanged` (and
every other field) is left as it was. -/
theorem action_level_changed_set_field_only (s : Validation.VState) (va vl : String) :
    Validation.reducer s (Validation.validationActionChanged va) =
      { s with validationAction := va } ∧
    Validation.reducer s (Validation.validationLevelChanged vl) =
      { s with validationLevel := vl } := by
  exact ⟨rfl, rfl⟩

/-- C8.  Counterexample to the claim as stated: with the store holding
`validationLevel = "strict"` (and `validationAction = "error"`), the
schema-modification command still carries `validationLevel = "moderate"` —
the level is hardcoded and not taken from the current state (and the
command record has no `validationAction` key at all). -/
theorem save_command_ignores_state_level_counterexample :
    (Validation.saveValidationCommand "\x7b\x7d"
      { hasDataService := true
        ns := { database := "db", collection := "coll" }
        validation :=
          { Validation.INITIAL_STATE with
            validationAction := "error"
            validationLevel := "strict" } }).map
      Validation.CollModCommand.validationLevel = some "moderate" ∧
    ("moderate" : String) ≠ "strict" := by
  exact ⟨rfl, by decide⟩

/-- C8 (amended).  For every save with a connected data service, the
command sent to the store is `{collMod: <collection>, validator:
checkValidator(text).validator, validationLevel: "moderate"}` — the
checked current text plus a hardcoded level and no action — and the
command callback dispatches `validatorSaved(text)` regardless of the
reported error. -/
theorem save_command_shape (validator : String) (ns : Validation.CollNamespace)
    (vs : Validation.VState) (e : Option String) :
    Validation.saveValidationCommand validator
        { hasDataService := true, ns := ns, validation := vs } =
      some { collMod := ns.collection
             validator := (Validation.checkValidator validator).validator
             validationLevel := "moderate" } ∧
    Validation.saveValidationCallback validator e =
      [Validation.validatorSaved validator] := by
  exact ⟨rfl, rfl⟩

/-- C10.  Every action whose type is registered in neither module's
mapping table leaves both the validation slice and the sample-documents
slice exactly unchanged: dispatch is total and unknown types are the
identity. -/
theorem unknown_action_type_identity (s : Validation.VState)
    (t : SampleDocuments.SDState) (a : Action)
    (hv : a.type ∉ [Validation.VALIDATOR_CHANGED, Validation.VALIDATOR_CANCELED,
      Validation.VALIDATOR_CREATED, Validation.VALIDATOR_SAVED,
      Validation.VALIDATION_ACTION_CHANGED, Validation.VALIDATION_LEVEL_CHANGED])
    (hs : a.type ∉ [SampleDocuments.SAMPLE_DOCUMENTS_FETCHED,
      SampleDocuments.LOADING_SAMPLE_DOCUMENTS]) :
    Validation.reducer s a = s ∧ SampleDocuments.reducer t a = t := by
  simp only [List.mem_cons, List.not_mem_nil, or_false, not_or] at hv hs
  constructor
  · simp [Validation.reducer, Validation.MAPPINGS, hv.1, hv.2.1, hv.2.2.1,
      hv.2.2.2.1, hv.2.2.2.2.1, hv.2.2.2.2.2]
  · simp [SampleDocuments.reducer, SampleDocuments.MAPPINGS, hs.1, hs.2]

/-- Witness for `unknown_action_type_identity` at the unregistered type
`"test"`. -/
theorem unknown_action_type_identity_witness :
    Validation.reducer Validation.INITIAL_STATE (Action.bare "test") =
      Validation.INITIAL_STATE ∧
    SampleDocuments.reducer SampleDocuments.INITIAL_STATE (Action.bare "test") =
      SampleDocuments.INITIAL_STATE :=
  unknown_action_type_identity Validation.INITIAL_STATE SampleDocuments.INITIAL_STATE
    (Action.bare "test") (by decide) (by decide)

/-- C9.  On every valid JSON-like predicate text — text the sandbox
evaluates to a well-formed document the rule grammar accepts —
`checkValidator` (the variant that normalizes to text and consults the
grammar acceptor) reports no syntax error, its normalized output is the
canonical rendering of the evaluated document, and re-checking that
normalized output is idempotent: the normalized form of the re-check
equals the original normalized form. -/
theorem checkValidator_idempotent_on_valid (accepts : String → Bool) (t : String)
    (v : JsValue) (hparse : parseJsExpr t = some v) (hwf : wfV v = true)
    (hacc : accepts (EJSON.stringify v) = true) :
    (ValidationP5.checkValidator accepts t).syntaxError = none ∧
    (ValidationP5.checkValidator accepts t).validator = EJSON.stringify v ∧
    (ValidationP5.checkValidator accepts
        ((ValidationP5.checkValidator accepts t).validator)).validator =
      (ValidationP5.checkValidator accepts t).validator := by
  have h1 : ValidationP5.checkValidator accepts t =
      { validator := EJSON.stringify v, syntaxError := none } := by
    simp [ValidationP5.checkValidator, executeJavascript, hparse, hacc]
  have h2 : executeJavascript (EJSON.stringify v) = Except.ok v := by
    simp [executeJavascript, parseJsExpr_render v hwf]
  rw [h1]
  refine ⟨rfl, rfl, ?_⟩
  simp [ValidationP5.checkValidator, h2]

/-- Witness for `checkValidator_idempotent_on_valid` at the concrete
predicate text `{"a":1}` with an accepting grammar. -/
theorem checkValidator_idempotent_on_valid_witness :
    (ValidationP5.checkValidator (fun _ => true) "\x7b\x22a\x22:1\x7d").syntaxError = none ∧
    (ValidationP5.checkValidator (fun _ => true) "\x7b\x22a\x22:1\x7d").validator =
      EJSON.stringify (JsValue.obj (JsFields.fcons "a" (JsValue.num 1) JsFields.fnil)) ∧
    (ValidationP5.checkValidator (fun _ => true)
        ((ValidationP5.checkValidator (fun _ => true)
          "\x7b\x22a\x22:1\x7d").validator)).validator =
      (ValidationP5.checkValidator (fun _ => true) "\x7b\x22a\x22:1\x7d").validator :=
  checkValidator_idempotent_on_valid (fun _ => true) "\x7b\x22a\x22:1\x7d"
    (JsValue.obj (JsFields.fcons "a" (JsValue.num 1) JsFields.fnil))
    (by decide) (by decide) rfl

end SchemaValidation
